import Mathlib

/-!
Formal model of the `cass::Session` orchestration layer of this repository
(`src/src/session.hpp`).  The definitions below are direct Lean translations
of the session state machine, the contact-point bootstrap, the event
processing and the request-dispatch loop; the theorems establish or refute
behavioural properties of those translations.
-/

/-- Host identity.  `cass::Host` wraps a resolved address and its equality and
ordering are address-based, so an opaque numeric identity suffices. -/
abbrev Host := Nat

/-- Session states, from `Session::SessionState` in `session.hpp`. -/
inductive SessionState where
  | SESSION_STATE_NEW
  | SESSION_STATE_CONNECTING
  | SESSION_STATE_READY
  | SESSION_STATE_DISCONNECTING
  | SESSION_STATE_DISCONNECTED
deriving DecidableEq, Repr

/-- Error codes used by `session.hpp` (`CASS_ERROR_LIB_SESSION_STATE`,
`CASS_ERROR_LIB_NO_STREAMS`, `CASS_ERROR_LIB_BAD_PARAMS`); the source is
always `CASS_ERROR_SOURCE_LIBRARY`. -/
inductive CassErrorCode where
  | LIB_SESSION_STATE
  | LIB_NO_STREAMS
  | LIB_BAD_PARAMS
deriving DecidableEq, Repr

/-- An error value: code plus the exact message string from the source. -/
structure CassError where
  code : CassErrorCode
  message : String
deriving DecidableEq, Repr

/-- Observable state of a future (`SessionFuture` / `RequestFuture`):
pending, resolved with a result, or resolved with an error. -/
inductive FutureVal where
  | pending
  | success
  | failed (e : CassError)
deriving DecidableEq, Repr

def wrongStateConnectError : CassError :=
  ⟨CassErrorCode.LIB_SESSION_STATE, "connect has already been called"⟩

def notConnectedError : CassError :=
  ⟨CassErrorCode.LIB_SESSION_STATE, "Session not connected"⟩

def queueFullError : CassError :=
  ⟨CassErrorCode.LIB_NO_STREAMS, "request queue full"⟩

def workersBusyError : CassError :=
  ⟨CassErrorCode.LIB_BAD_PARAMS, "All workers are busy"⟩

/-! ## Request dispatch (`Session::on_execute`)

The inner loop of `on_execute` probes `io_workers_[start]` starting at
`current_io_worker_`, with `start++` on each refusal and `remaining--` as the
loop counter.  `start` is never reduced modulo `io_workers_.size()`, so the
vector subscript can run past the end; the model surfaces such an access as
an explicit `outOfBounds` outcome (in C++ it is undefined behaviour).
Workers are modelled by their count `W` and an acceptance oracle
`accepts : Nat → Bool` (`io_worker->execute(request_future)`). -/

inductive DispatchOutcome where
  | accepted (worker : Nat) (newCursor : Nat)
  | allRefused
  | outOfBounds (idx : Nat)
deriving DecidableEq, Repr

/-- The `while(remaining != 0)` loop of `Session::on_execute`, one request.
On acceptance the cursor becomes `(start + 1) % W` exactly as in the source;
on refusal `start` is incremented without wrapping. -/
def dispatch_loop (W : Nat) (accepts : Nat → Bool) : Nat → Nat → DispatchOutcome
  | _, 0 => DispatchOutcome.allRefused
  | start, remaining + 1 =>
    if start < W then
      if accepts start then DispatchOutcome.accepted start ((start + 1) % W)
      else dispatch_loop W accepts (start + 1) remaining
    else DispatchOutcome.outOfBounds start

/-- Effects of `on_execute` on one dequeued request: the request future's
state afterwards, whether the request object was deleted, the cursor value
afterwards, the worker that accepted (if any), and an out-of-bounds access
index (if the probe ran past the worker collection). -/
structure DispatchEffects where
  future : FutureVal
  destroyed : Bool
  cursor : Nat
  handed_to : Option Nat
  oob_access : Option Nat
deriving DecidableEq, Repr

/-- One iteration of the dequeue loop in `Session::on_execute`: run the probe
loop with `start = current_io_worker_` and `remaining = io_workers_.size()`.
If every worker refused (`remaining == 0`), the request future gets
`set_error(... "All workers are busy")`; the source never deletes the request
object in `on_execute`, so `destroyed` is `false` on every path. -/
def on_execute_one (W : Nat) (accepts : Nat → Bool) (cursor : Nat) : DispatchEffects :=
  match dispatch_loop W accepts cursor W with
  | DispatchOutcome.accepted w cNew =>
      { future := FutureVal.pending, destroyed := false, cursor := cNew,
        handed_to := some w, oob_access := none }
  | DispatchOutcome.allRefused =>
      { future := FutureVal.failed workersBusyError, destroyed := false, cursor := cursor,
        handed_to := none, oob_access := none }
  | DispatchOutcome.outOfBounds i =>
      { future := FutureVal.pending, destroyed := false, cursor := cursor,
        handed_to := none, oob_access := some i }

/-- C4: with two workers, cursor 1 and both workers refusing, the probe
accesses index 2 of the 2-element worker collection: the loop reads past the
end instead of wrapping, refuting the claim that every subscript stays below
the collection size. -/
theorem session_c4 : dispatch_loop 2 (fun _ => false) 1 2 = DispatchOutcome.outOfBounds 2 := by
  rfl

/-- C3 counterexample: with two workers, cursor 1, worker 1 refusing and
worker 0 accepting, rotation order with wraparound would offer the request to
worker 0 (outcome `accepted 0 1`); the code instead accesses index 2 out of
bounds, so the claim as stated fails at this input. -/
theorem session_c3_counterexample :
    dispatch_loop 2 (fun i => i == 0) 1 2 = DispatchOutcome.outOfBounds 2 ∧
    dispatch_loop 2 (fun i => i == 0) 1 2 ≠ DispatchOutcome.accepted 0 1 := by
  constructor
  · rfl
  · decide

/-- If every in-range worker refuses, probing `remaining` slots from `start`
with `start + remaining ≤ W` never accepts and never leaves bounds, so the
loop falls through with `remaining == 0`. -/
lemma dispatch_all_refuse (W : Nat) (accepts : Nat → Bool)
    (hacc : ∀ i, i < W → accepts i = false) :
    ∀ remaining start, start + remaining ≤ W →
      dispatch_loop W accepts start remaining = DispatchOutcome.allRefused := by
  intro remaining
  induction remaining with
  | zero => intro start _; rfl
  | succ rem ih =>
      intro start hle
      have hs : start < W := by omega
      rw [dispatch_loop]
      rw [if_pos hs, hacc start hs]
      simp only [Bool.false_eq_true, if_false]
      exact ih (start + 1) (by omega)

/-- If every in-range worker refuses and the probe starts at `start ≤ W` with
enough remaining iterations to pass the end (`W < start + remaining`), the
loop dereferences index `W`, one past the last worker. -/
lemma dispatch_refuse_oob (W : Nat) (accepts : Nat → Bool)
    (hacc : ∀ i, i < W → accepts i = false) :
    ∀ remaining start, start ≤ W → W < start + remaining →
      dispatch_loop W accepts start remaining = DispatchOutcome.outOfBounds W := by
  intro remaining
  induction remaining with
  | zero =>
      intro start h1 h2
      exact absurd h2 (by omega)
  | succ rem ih =>
      intro start h1 h2
      rw [dispatch_loop]
      by_cases hs : start < W
      · rw [if_pos hs, hacc start hs]
        simp only [Bool.false_eq_true, if_false]
        exact ih (start + 1) (by omega) (by omega)
      · rw [if_neg hs]
        have : start = W := by omega
        rw [this]

/-- With every worker accepting, the first probe (at the cursor, which is in
bounds) accepts immediately and the cursor advances to `(c + 1) % W`. -/
lemma dispatch_all_accept (W c : Nat) (hc : c < W) :
    dispatch_loop W (fun _ => true) c W = DispatchOutcome.accepted c ((c + 1) % W) := by
  cases W with
  | zero => exact absurd hc (by omega)
  | succ w =>
      rw [dispatch_loop]
      rw [if_pos hc, if_pos rfl]

/-- Sequential dispatch of `N` requests through `on_execute` with every
worker accepting: returns the list of accepting workers in request order and
the final cursor.  (The `dispatch_loop` call per request mirrors the source:
`start = current_io_worker_`, `remaining = io_workers_.size()`.) -/
def runAllAccept (W : Nat) : Nat → Nat → List Nat × Nat
  | c, 0 => ([], c)
  | c, n + 1 =>
    match dispatch_loop W (fun _ => true) c W with
    | DispatchOutcome.accepted w cNew =>
        let rest := runAllAccept W cNew n
        (w :: rest.1, rest.2)
    | _ => ([], c)

lemma runAllAccept_spec (W : Nat) :
    ∀ N c0, c0 < W →
      (runAllAccept W c0 N).1 = (List.range N).map (fun k => (c0 + k) % W) ∧
      (runAllAccept W c0 N).2 = (c0 + N) % W := by
  intro N
  induction N with
  | zero =>
      intro c0 h
      refine ⟨rfl, ?_⟩
      simpa using (Nat.mod_eq_of_lt h).symm
  | succ n ih =>
      intro c0 h
      have hW : 0 < W := Nat.lt_of_le_of_lt (Nat.zero_le c0) h
      have hnext : (c0 + 1) % W < W := Nat.mod_lt _ hW
      obtain ⟨ih1, ih2⟩ := ih ((c0 + 1) % W) hnext
      rw [runAllAccept, dispatch_all_accept W c0 h]
      constructor
      · show c0 :: (runAllAccept W ((c0 + 1) % W) n).1 = _
        rw [ih1, List.range_succ_eq_map, List.map_cons, List.map_map]
        have hhead : (c0 + 0) % W = c0 := by
          simpa using Nat.mod_eq_of_lt h
        rw [hhead]
        congr 1
        apply List.map_congr_left
        intro k _
        show ((c0 + 1) % W + k) % W = (c0 + Nat.succ k) % W
        have := (Nat.mod_modEq (c0 + 1) W).add_right k
        calc ((c0 + 1) % W + k) % W = (c0 + 1 + k) % W := this
          _ = (c0 + Nat.succ k) % W := by rw [Nat.succ_eq_add_one]; ring_nf
      · show (runAllAccept W ((c0 + 1) % W) n).2 = _
        rw [ih2]
        have := (Nat.mod_modEq (c0 + 1) W).add_right n
        calc ((c0 + 1) % W + n) % W = (c0 + 1 + n) % W := this
          _ = (c0 + (n + 1)) % W := by ring_nf

/-- Rotation steps of length less than `W` never collide modulo `W`. -/
lemma mod_shift_inj (W c0 i j : Nat) (hi : i < W) (hj : j < W)
    (h : (c0 + i) % W = (c0 + j) % W) : i = j := by
  rcases Nat.le_total i j with hij | hij
  · have hle : c0 + i ≤ c0 + j := by omega
    have hd : W ∣ c0 + j - (c0 + i) := (Nat.modEq_iff_dvd' hle).mp h
    have hsub : c0 + j - (c0 + i) = j - i := by omega
    rw [hsub] at hd
    have := Nat.eq_zero_of_dvd_of_lt hd
    omega
  · have hle : c0 + j ≤ c0 + i := by omega
    have hd : W ∣ c0 + i - (c0 + j) := (Nat.modEq_iff_dvd' hle).mp h.symm
    have hsub : c0 + i - (c0 + j) = i - j := by omega
    rw [hsub] at hd
    have := Nat.eq_zero_of_dvd_of_lt hd
    omega

/-- C3 (amended): the dispatch loop probes workers at successively increasing
indices starting at `current_worker_cursor` WITHOUT wrapping around the end
of the collection — with a nonzero cursor and refusing workers the probe
accesses index `W`, out of bounds (last conjunct).  When every worker
accepts, the k-th sequential request is handled by worker `(c0 + k) % W` and
the cursor after `N` requests is `(c0 + N) % W`, so over any `N ≤ W`
sequential requests no worker is used twice before all others are used
(`Nodup` conjunct), and the assignment is cyclic thereafter. -/
theorem session_c3 (W c0 N : Nat) (h : c0 < W) :
    (runAllAccept W c0 N).1 = (List.range N).map (fun k => (c0 + k) % W) ∧
    (runAllAccept W c0 N).2 = (c0 + N) % W ∧
    (N ≤ W → ((runAllAccept W c0 N).1).Nodup) ∧
    (∀ c, 0 < c → c < W →
      dispatch_loop W (fun _ => false) c W = DispatchOutcome.outOfBounds W) := by
  obtain ⟨h1, h2⟩ := runAllAccept_spec W N c0 h
  refine ⟨h1, h2, ?_, ?_⟩
  · intro hNW
    rw [h1]
    refine List.Nodup.map_on ?_ (List.nodup_range N)
    intro i hi j hj hij
    rw [List.mem_range] at hi hj
    exact mod_shift_inj W c0 i j (by omega) (by omega) hij
  · intro c hc0 hcW
    exact dispatch_refuse_oob W (fun _ => false) (fun _ _ => rfl) W c (by omega) (by omega)

/-- C3 witness: three all-accepting workers starting at cursor 0 serve three
sequential requests as workers 0, 1, 2 with no repeats, and a refusing
collection probed from cursor 2 goes out of bounds at index 3. -/
theorem session_c3_witness :
    (runAllAccept 3 0 3).1 = [0, 1, 2] ∧
    (runAllAccept 3 0 3).2 = 0 ∧
    ((runAllAccept 3 0 3).1).Nodup ∧
    dispatch_loop 3 (fun _ => false) 2 3 = DispatchOutcome.outOfBounds 3 := by
  have h := session_c3 3 0 3 (by decide)
  refine ⟨?_, ?_, h.2.2.1 (by decide), h.2.2.2 2 (by decide) (by decide)⟩
  · rw [h.1]; decide
  · have := h.2.1; simpa using this

/-- C8 counterexample: one worker, cursor 0, the worker refuses.  The request
future is failed with message "All workers are busy" (not "no available
worker") and `on_execute` contains no delete, so the request object is NOT
destroyed — refuting the claim's "the request object is destroyed" at this
input. -/
theorem session_c8_counterexample :
    (on_execute_one 1 (fun _ => false) 0).destroyed = false ∧
    (on_execute_one 1 (fun _ => false) 0).future = FutureVal.failed workersBusyError := by
  constructor
  · rfl
  · rfl

/-- C8 (amended): if the cursor is 0 and every worker refuses, the request
future is resolved with the error "All workers are busy"
(`CASS_ERROR_LIB_BAD_PARAMS`), the request object is not destroyed by the
dispatch loop, and `current_worker_cursor` is left unchanged.  (With a
nonzero cursor an all-refusing pass instead runs past the end of the worker
collection.) -/
theorem session_c8 (W : Nat) (accepts : Nat → Bool)
    (hacc : ∀ i, i < W → accepts i = false) :
    on_execute_one W accepts 0 =
      { future := FutureVal.failed workersBusyError, destroyed := false, cursor := 0,
        handed_to := none, oob_access := none } := by
  unfold on_execute_one
  rw [dispatch_all_refuse W accepts hacc W 0 (by omega)]

/-- C8 witness: two refusing workers at cursor 0. -/
theorem session_c8_witness :
    on_execute_one 2 (fun _ => false) 0 =
      { future := FutureVal.failed workersBusyError, destroyed := false, cursor := 0,
        handed_to := none, oob_access := none } :=
  session_c8 2 (fun _ => false) (fun _ _ => rfl)

/-! ## Bootstrap: `Session::on_connect`, `Session::on_resolve`,
`Session::init_pools`

Address parsing (`Address::from_string`) and asynchronous resolution are
external collaborators; they are represented by a parse oracle
`parse : String → Option Host` (a `some` result is a literal contact point)
and by explicit resolution-completion outcomes (`some h` = resolved to host
`h`, `none` = resolution failed). -/

/-- Observable bootstrap state of a session plus the calls it issued:
`hosts_`, `pending_resolve_count_` and `pending_connections_count_` are the
session fields (both counters are C++ `int`); `resolver_calls` records the
seeds handed to `Resolver::resolve`, `add_pool_calls` records every
`io_worker->add_pool_q(host)` call as a (host, worker-index) pair,
`bootstrap_runs` counts invocations of `init_pools`, and `log_count` counts
the `fprintf` in the `on_resolve` failure branch. -/
structure BootState where
  hosts_ : List Host
  pending_resolve_count_ : Int
  pending_connections_count_ : Int
  resolver_calls : List String
  add_pool_calls : List (Host × Nat)
  bootstrap_runs : Nat
  log_count : Nat
deriving DecidableEq, Repr

/-- Fresh session just after a successful `connect` CAS: empty host set and
zero counters (constructor defaults of `Session`). -/
def BootState.initial : BootState :=
  { hosts_ := [], pending_resolve_count_ := 0, pending_connections_count_ := 0,
    resolver_calls := [], add_pool_calls := [], bootstrap_runs := 0, log_count := 0 }

/-- `hosts_.insert(host)`: `hosts_` is a `std::set<Host>` keyed by address,
so insertion deduplicates. -/
def hostsInsert (hs : List Host) (h : Host) : List Host :=
  if h ∈ hs then hs else hs ++ [h]

/-- The nested loop of `Session::init_pools`: for every host (outer) and
every worker (inner), one `add_pool_q(host)` call. -/
def addPoolPairs : List Host → Nat → List (Host × Nat)
  | [], _ => []
  | h :: t, W => (List.range W).map (fun w => (h, w)) ++ addPoolPairs t W

/-- `Session::init_pools`: `num_pools = hosts_.size() * io_workers_.size()`,
`pending_connections_count_ = num_pools * core_connections_per_host()`, then
one `add_pool_q` per (host, worker) pair. -/
def init_pools (W core : Nat) (s : BootState) : BootState :=
  let num_pools : Int := ((s.hosts_.length * W : Nat) : Int)
  { s with pending_connections_count_ := num_pools * (core : Int),
           add_pool_calls := s.add_pool_calls ++ addPoolPairs s.hosts_ W,
           bootstrap_runs := s.bootstrap_runs + 1 }

/-- The contact-point loop of `Session::on_connect`: a seed that parses as a
literal address is inserted into the host set; otherwise
`pending_resolve_count_` is incremented and the seed is handed to
`Resolver::resolve`. -/
def contactLoop (parse : String → Option Host) (cps : List String) (s : BootState) : BootState :=
  cps.foldl
    (fun s seed =>
      match parse seed with
      | some h => { s with hosts_ := hostsInsert s.hosts_ h }
      | none =>
          { s with pending_resolve_count_ := s.pending_resolve_count_ + 1,
                   resolver_calls := s.resolver_calls ++ [seed] })
    s

/-- `Session::on_connect`: iterate the contact points, then run `init_pools`
exactly when `pending_resolve_count_ == 0`. -/
def on_connect (parse : String → Option Host) (cps : List String) (W core : Nat)
    (s : BootState) : BootState :=
  let s := contactLoop parse cps s
  if s.pending_resolve_count_ = 0 then init_pools W core s else s

/-- `Session::on_resolve`: on success insert the host, decrement the counter
and run `init_pools` when it reaches zero; on failure ONLY `fprintf` — the
source's failure branch performs no decrement and no insert. -/
def on_resolve (W core : Nat) (outcome : Option Host) (s : BootState) : BootState :=
  match outcome with
  | some h =>
      let s1 := { s with hosts_ := hostsInsert s.hosts_ h }
      let s2 := { s1 with pending_resolve_count_ := s1.pending_resolve_count_ - 1 }
      if s2.pending_resolve_count_ = 0 then init_pools W core s2 else s2
  | none => { s with log_count := s.log_count + 1 }

/-- C2: on a failed resolution the `on_resolve` callback logs and does
NOTHING else — `pending_resolve_count_` is NOT decremented, no host is
inserted and bootstrap is not triggered.  This evaluates the code at the
claim's failure case and shows the counter can no longer reach zero once a
resolution fails, contradicting the claimed decrement-on-failure. -/
theorem session_c2 (W core : Nat) (s : BootState) :
    (on_resolve W core none s).pending_resolve_count_ = s.pending_resolve_count_ ∧
    (on_resolve W core none s).hosts_ = s.hosts_ ∧
    (on_resolve W core none s).bootstrap_runs = s.bootstrap_runs ∧
    (on_resolve W core none s).pending_connections_count_ = s.pending_connections_count_ ∧
    (on_resolve W core none s).log_count = s.log_count + 1 := by
  refine ⟨rfl, rfl, rfl, rfl, rfl⟩

/-- Membership in the (host, worker) call list of `init_pools`. -/
lemma mem_addPoolPairs (hs : List Host) (W : Nat) (a : Host) (b : Nat) :
    (a, b) ∈ addPoolPairs hs W ↔ a ∈ hs ∧ b < W := by
  induction hs with
  | nil => simp [addPoolPairs]
  | cons h t ih =>
      simp only [addPoolPairs, List.mem_append, List.mem_map, List.mem_range, ih,
        List.mem_cons, Prod.mk.injEq]
      constructor
      · rintro (⟨w, hw, he1, he2⟩ | ⟨ha, hb⟩)
        · exact ⟨Or.inl he1.symm, he2 ▸ hw⟩
        · exact ⟨Or.inr ha, hb⟩
      · rintro ⟨ha | ha, hb⟩
        · exact Or.inl ⟨b, hb, ha.symm, rfl⟩
        · exact Or.inr ⟨ha, hb⟩

/-- Number of occurrences of a (host, worker) pair in a call list. -/
def pairCount (p : Host × Nat) : List (Host × Nat) → Nat
  | [] => 0
  | q :: t => (if q = p then 1 else 0) + pairCount p t

lemma pairCount_append (p : Host × Nat) (l1 l2 : List (Host × Nat)) :
    pairCount p (l1 ++ l2) = pairCount p l1 + pairCount p l2 := by
  induction l1 with
  | nil => simp [pairCount]
  | cons q t ih => simp [pairCount, ih]; omega

lemma pairCount_eq_zero (p : Host × Nat) (l : List (Host × Nat)) (h : p ∉ l) :
    pairCount p l = 0 := by
  induction l with
  | nil => rfl
  | cons q t ih =>
      rw [List.mem_cons, not_or] at h
      rw [pairCount, if_neg (fun he => h.1 he.symm), ih h.2]

/-- One row of `init_pools` (a fixed host paired with every worker index from
a duplicate-free index list) contains a pair exactly once when it matches. -/
lemma pairCount_row (h a : Host) (b : Nat) (l : List Nat) (hnd : l.Nodup) :
    pairCount (a, b) (l.map (fun w => (h, w))) =
      if h = a ∧ b ∈ l then 1 else 0 := by
  induction l with
  | nil => simp [pairCount]
  | cons w t ih =>
      have ih2 := ih (List.nodup_cons.mp hnd).2
      have hwt : w ∉ t := (List.nodup_cons.mp hnd).1
      rw [List.map_cons, pairCount, ih2]
      by_cases h1 : (h, w) = (a, b)
      · have hha : h = a := (Prod.mk.inj h1).1
        have hwb : w = b := (Prod.mk.inj h1).2
        subst hha
        subst hwb
        rw [if_pos rfl, if_neg (fun hc => hwt hc.2),
          if_pos ⟨rfl, List.mem_cons_self w t⟩]
      · rw [if_neg h1]
        by_cases h2 : h = a ∧ b ∈ t
        · rw [if_pos h2, if_pos ⟨h2.1, List.mem_cons_of_mem w h2.2⟩]
        · have h4 : ¬(h = a ∧ b ∈ w :: t) := by
            intro hc
            rcases List.mem_cons.mp hc.2 with hbw | hbt2
            · exact h1 (by rw [hc.1, hbw])
            · exact h2 ⟨hc.1, hbt2⟩
          rw [if_neg h2, if_neg h4]

/-- With a duplicate-free host list, `init_pools` issues exactly one
`add_pool_q` call per (host, worker) pair. -/
lemma count_addPoolPairs (hs : List Host) (W : Nat) (a : Host) (b : Nat)
    (hnd : hs.Nodup) (ha : a ∈ hs) (hb : b < W) :
    pairCount (a, b) (addPoolPairs hs W) = 1 := by
  induction hs with
  | nil => cases ha
  | cons h t ih =>
      rw [addPoolPairs, pairCount_append]
      rw [pairCount_row h a b (List.range W) (List.nodup_range W)]
      rcases List.mem_cons.mp ha with hah | hat
      · subst hah
        rw [if_pos ⟨rfl, List.mem_range.mpr hb⟩]
        have h2 : pairCount (a, b) (addPoolPairs t W) = 0 :=
          pairCount_eq_zero _ _
            (fun hmem => (List.nodup_cons.mp hnd).1 ((mem_addPoolPairs t W a b).mp hmem).1)
        omega
      · have hha : ¬(h = a ∧ b ∈ List.range W) := by
          rintro ⟨rfl, -⟩
          exact (List.nodup_cons.mp hnd).1 hat
        rw [if_neg hha]
        have h2 := ih (List.nodup_cons.mp hnd).2 hat
        omega

/-- Parse oracle for spec Scenario A: the two seeds are literal
`ip:port` contact points resolving to two distinct hosts, so
`Address::from_string` succeeds on both. -/
def scenarioAParse : String → Option Host := fun s =>
  if s = "127.0.0.1:9042" then some 1
  else if s = "127.0.0.2:9042" then some 2
  else none

/-- Parse oracle for a symbolic contact point: `Address::from_string` fails
on every seed, so each seed goes to the resolver. -/
def failParse : String → Option Host := fun _ => none

/-- C6: `init_pools` sets `pending_connections_count_` to
`|hosts| * |workers| * core_connections_per_host` and issues exactly one
`add_pool_q` call per (host, worker) pair; and in Scenario A (two literal
contact points, one worker, one core connection per host) `on_connect` makes
no resolver call, sets the count to 2 and bootstraps once. -/
theorem session_c6 :
    (∀ (W core : Nat) (s : BootState) (h : Host) (w : Nat),
      s.hosts_.Nodup → h ∈ s.hosts_ → w < W → s.add_pool_calls = [] →
      (init_pools W core s).pending_connections_count_ =
        (s.hosts_.length : Int) * (W : Int) * (core : Int) ∧
      pairCount (h, w) (init_pools W core s).add_pool_calls = 1) ∧
    ((on_connect scenarioAParse ["127.0.0.1:9042", "127.0.0.2:9042"] 1 1
        BootState.initial).resolver_calls = [] ∧
     (on_connect scenarioAParse ["127.0.0.1:9042", "127.0.0.2:9042"] 1 1
        BootState.initial).pending_connections_count_ = 2 ∧
     (on_connect scenarioAParse ["127.0.0.1:9042", "127.0.0.2:9042"] 1 1
        BootState.initial).bootstrap_runs = 1 ∧
     (on_connect scenarioAParse ["127.0.0.1:9042", "127.0.0.2:9042"] 1 1
        BootState.initial).add_pool_calls = [(1, 0), (2, 0)]) := by
  constructor
  · intro W core s h w hnd hmem hw hempty
    constructor
    · show ((s.hosts_.length * W : Nat) : Int) * (core : Int) = _
      push_cast
      ring
    · show pairCount (h, w) (s.add_pool_calls ++ addPoolPairs s.hosts_ W) = 1
      rw [hempty, List.nil_append]
      exact count_addPoolPairs s.hosts_ W h w hnd hmem hw
  · exact ⟨by decide, by decide, by decide, by decide⟩

/-- Sample bootstrap state for the C6 witness: one known host, no prior
`add_pool_q` calls. -/
def sampleBoot : BootState :=
  { hosts_ := [5], pending_resolve_count_ := 0, pending_connections_count_ := 0,
    resolver_calls := [], add_pool_calls := [], bootstrap_runs := 0, log_count := 0 }

/-- C6 witness: one host, one worker, one core connection per host. -/
theorem session_c6_witness :
    ((init_pools 1 1 sampleBoot).pending_connections_count_ = 1 ∧
      pairCount (5, 0) (init_pools 1 1 sampleBoot).add_pool_calls = 1) ∧
    (on_connect scenarioAParse ["127.0.0.1:9042", "127.0.0.2:9042"] 1 1
        BootState.initial).pending_connections_count_ = 2 := by
  have h1 := session_c6.1 1 1 sampleBoot 5 0 (by decide) (by decide) (by decide) rfl
  have h2 := session_c6.2
  exact ⟨⟨by simpa using h1.1, h1.2⟩, h2.2.1⟩

/-- C7: a connect attempt whose single contact point is symbolic and whose
resolution fails never runs pool bootstrap: `on_connect` leaves
`pending_resolve_count_` at 1 and skips `init_pools`, and the failed
resolution completion does not decrement the counter, so bootstrap runs zero
times for this connect attempt instead of exactly once. -/
theorem session_c7 :
    (on_connect failParse ["node1.example.com:9042"] 1 1
        BootState.initial).bootstrap_runs = 0 ∧
    (on_connect failParse ["node1.example.com:9042"] 1 1
        BootState.initial).pending_resolve_count_ = 1 ∧
    (on_resolve 1 1 none (on_connect failParse ["node1.example.com:9042"] 1 1
        BootState.initial)).bootstrap_runs = 0 ∧
    (on_resolve 1 1 none (on_connect failParse ["node1.example.com:9042"] 1 1
        BootState.initial)).pending_resolve_count_ = 1 ∧
    (on_resolve 1 1 none (on_connect failParse ["node1.example.com:9042"] 1 1
        BootState.initial)).log_count = 1 := by
  exact ⟨by decide, by decide, by decide, by decide, by decide⟩

/-! ## Event processing (`Session::on_event`, CONNECTED payloads) -/

/-- The session state touched by a CONNECTED event: the connection counter
(C++ `int`), the state field, the stored connect future, the host set handed
to `load_balancing_policy_->init`, the number of `set_result` calls made on
the connect future, and whether a `set_result` was attempted through a null
`connect_future_` pointer. -/
structure EventState where
  pending_connections_count_ : Int
  state_ : SessionState
  connect_future_ : Option FutureVal
  lb_init_hosts : Option (List Host)
  set_result_calls : Nat
  deref_null : Bool
deriving DecidableEq, Repr

/-- One `Payload::ON_CONNECTED` iteration of the drain loop in
`Session::on_event`: decrement `pending_connections_count_`; only when the
decremented value is exactly zero, initialize the load-balancing policy with
the host set, store `SESSION_STATE_READY`, call `set_result()` on
`connect_future_` and null the stored pointer. -/
def onConnectedPayload (hosts : List Host) (s : EventState) : EventState :=
  if s.pending_connections_count_ - 1 = 0 then
    match s.connect_future_ with
    | some _ =>
        { pending_connections_count_ := s.pending_connections_count_ - 1,
          state_ := SessionState.SESSION_STATE_READY,
          connect_future_ := none,
          lb_init_hosts := some hosts,
          set_result_calls := s.set_result_calls + 1,
          deref_null := s.deref_null }
    | none =>
        { pending_connections_count_ := s.pending_connections_count_ - 1,
          state_ := SessionState.SESSION_STATE_READY,
          connect_future_ := none,
          lb_init_hosts := some hosts,
          set_result_calls := s.set_result_calls,
          deref_null := true }
  else
    { s with pending_connections_count_ := s.pending_connections_count_ - 1 }

/-- Processing `k` CONNECTED events in sequence. -/
def iterConnected (hosts : List Host) : Nat → EventState → EventState
  | 0, s => s
  | k + 1, s => onConnectedPayload hosts (iterConnected hosts k s)

/-- Session state right after a successful connect with `n` outstanding pool
connections: CONNECTING, a pending connect future, nothing resolved yet. -/
def connectingEventState (n : Nat) : EventState :=
  { pending_connections_count_ := (n : Int),
    state_ := SessionState.SESSION_STATE_CONNECTING,
    connect_future_ := some FutureVal.pending,
    lb_init_hosts := none,
    set_result_calls := 0,
    deref_null := false }

/-- The else-branch of the CONNECTED handler: when the decremented counter is
not zero, only the counter changes. -/
lemma onConnectedPayload_else (hosts : List Host) (s : EventState)
    (h : s.pending_connections_count_ - 1 ≠ 0) :
    onConnectedPayload hosts s =
      { s with pending_connections_count_ := s.pending_connections_count_ - 1 } := by
  rw [onConnectedPayload, if_neg h]

lemma iterConnected_before (hosts : List Host) (n : Nat) :
    ∀ k, k < n →
      iterConnected hosts k (connectingEventState n) =
        { pending_connections_count_ := (n : Int) - (k : Int),
          state_ := SessionState.SESSION_STATE_CONNECTING,
          connect_future_ := some FutureVal.pending,
          lb_init_hosts := none,
          set_result_calls := 0,
          deref_null := false } := by
  intro k
  induction k with
  | zero =>
      intro _
      simp [iterConnected, connectingEventState]
  | succ k ih =>
      intro hk
      rw [iterConnected, ih (by omega),
        onConnectedPayload_else hosts _ (by show (n : Int) - (k : Int) - 1 ≠ 0; omega)]
      congr 1
      show (n : Int) - (k : Int) - 1 = (n : Int) - ((k + 1 : Nat) : Int)
      push_cast
      ring

/-- C5: starting from CONNECTING with `n ≥ 1` outstanding connections and a
pending connect future, the n-th CONNECTED event (and only the n-th)
transitions the session to READY, initializes the load-balancing policy with
the final host set, resolves the connect future exactly once and clears the
stored handle; every earlier event leaves the session CONNECTING with the
future unresolved, and one further spurious CONNECTED event only drives the
counter negative: the state stays READY, no second `set_result` happens and
the cleared null handle is never dereferenced. -/
theorem session_c5 (n : Nat) (hosts : List Host) (hn : 0 < n) :
    (iterConnected hosts n (connectingEventState n)).state_ =
      SessionState.SESSION_STATE_READY ∧
    (iterConnected hosts n (connectingEventState n)).lb_init_hosts = some hosts ∧
    (iterConnected hosts n (connectingEventState n)).set_result_calls = 1 ∧
    (iterConnected hosts n (connectingEventState n)).connect_future_ = none ∧
    (iterConnected hosts n (connectingEventState n)).pending_connections_count_ = 0 ∧
    (∀ k, k < n →
      (iterConnected hosts k (connectingEventState n)).state_ =
        SessionState.SESSION_STATE_CONNECTING ∧
      (iterConnected hosts k (connectingEventState n)).set_result_calls = 0) ∧
    (iterConnected hosts (n + 1) (connectingEventState n)).state_ =
      SessionState.SESSION_STATE_READY ∧
    (iterConnected hosts (n + 1) (connectingEventState n)).set_result_calls = 1 ∧
    (iterConnected hosts (n + 1) (connectingEventState n)).connect_future_ = none ∧
    (iterConnected hosts (n + 1) (connectingEventState n)).deref_null = false := by
  obtain ⟨m, rfl⟩ : ∃ m, n = m + 1 := ⟨n - 1, by omega⟩
  have hstep : iterConnected hosts (m + 1) (connectingEventState (m + 1)) =
      { pending_connections_count_ := 0,
        state_ := SessionState.SESSION_STATE_READY,
        connect_future_ := none,
        lb_init_hosts := some hosts,
        set_result_calls := 1,
        deref_null := false } := by
    have hone : ((m + 1 : Nat) : Int) - ((m : Nat) : Int) = 1 := by push_cast; ring
    rw [iterConnected, iterConnected_before hosts (m + 1) m (by omega), hone]
    rfl
  have hspur : iterConnected hosts (m + 1 + 1) (connectingEventState (m + 1)) =
      { pending_connections_count_ := -1,
        state_ := SessionState.SESSION_STATE_READY,
        connect_future_ := none,
        lb_init_hosts := some hosts,
        set_result_calls := 1,
        deref_null := false } := by
    rw [iterConnected, hstep]
    rfl
  refine ⟨by rw [hstep], by rw [hstep], by rw [hstep], by rw [hstep], by rw [hstep],
    ?_, by rw [hspur], by rw [hspur], by rw [hspur], by rw [hspur]⟩
  intro k hk
  rw [iterConnected_before hosts (m + 1) k hk]
  exact ⟨rfl, rfl⟩

/-- C5 witness: two outstanding connections, host set `[7]`. -/
theorem session_c5_witness :
    (iterConnected [7] 2 (connectingEventState 2)).state_ =
      SessionState.SESSION_STATE_READY ∧
    (iterConnected [7] 2 (connectingEventState 2)).lb_init_hosts = some [7] ∧
    (iterConnected [7] 2 (connectingEventState 2)).set_result_calls = 1 ∧
    (iterConnected [7] 2 (connectingEventState 2)).connect_future_ = none ∧
    (iterConnected [7] 3 (connectingEventState 2)).set_result_calls = 1 ∧
    (iterConnected [7] 3 (connectingEventState 2)).deref_null = false := by
  have h := session_c5 2 [7] (by decide)
  exact ⟨h.1, h.2.1, h.2.2.1, h.2.2.2.1, h.2.2.2.2.2.2.2.1, h.2.2.2.2.2.2.2.2.2⟩

/-! ## `Session::connect`, `Session::shutdown`, `Session::execute` -/

/-- The session fields relevant to the connect/shutdown entry points
(workers are represented by their count, `io_workers_.size()`). -/
structure Session where
  state_ : SessionState
  keyspace_ : String
  connect_future_ : Option FutureVal
  shutdown_future_ : Option FutureVal
  hosts_ : List Host
  pending_resolve_count_ : Int
  pending_connections_count_ : Int
  current_io_worker_ : Nat
  io_worker_count : Nat
deriving DecidableEq, Repr

/-- Result of a `connect` call: the session afterwards, the pointer value the
call returns (`none` = `nullptr`), the observable state of the
`SessionFuture` allocated by the call, and whether the connect machinery
(`init`, `uv_thread_create`, `uv_async_send`) ran. -/
structure ConnectResult where
  session : Session
  returned : Option FutureVal
  created : FutureVal
  machinery_started : Bool
deriving DecidableEq, Repr

/-- `Session::connect(const std::string&)`: first `connect_future_` is set to
a fresh pending future; then a compare-exchange of `state_` from NEW to
CONNECTING decides the branch.  On CAS failure the fresh future gets
`set_error(..., "connect has already been called", ...)`, `connect_future_`
is set to `nullptr`, and the function returns `connect_future_` — that is,
`nullptr`, not the failed future. -/
def Session.connect (s : Session) (ks : String) : ConnectResult :=
  let s1 : Session := { s with connect_future_ := some FutureVal.pending }
  if s1.state_ = SessionState.SESSION_STATE_NEW then
    let s2 : Session :=
      { s1 with state_ := SessionState.SESSION_STATE_CONNECTING, keyspace_ := ks }
    { session := s2, returned := s2.connect_future_, created := FutureVal.pending,
      machinery_started := true }
  else
    let s2 : Session := { s1 with connect_future_ := none }
    { session := s2, returned := s2.connect_future_,
      created := FutureVal.failed wrongStateConnectError, machinery_started := false }

/-- Result of a `shutdown` call: the session afterwards, the returned pointer
value, the state of the `ShutdownSessionFuture` allocated by the call, and
how many `io_worker->shutdown_q()` calls were issued. -/
structure ShutdownResult where
  session : Session
  returned : Option FutureVal
  created : FutureVal
  worker_shutdown_calls : Nat
deriving DecidableEq, Repr

/-- `Session::shutdown()`: `shutdown_future_` is set to a fresh pending
future; a CAS from READY, then from CONNECTING, to DISCONNECTING decides the
branch.  On success every worker receives `shutdown_q()`.  On failure the
fresh future gets `set_error(..., "Session not connected")`,
`shutdown_future_` is set to `nullptr`, and the function returns
`shutdown_future_` — `nullptr`, not the failed future. -/
def Session.shutdown (s : Session) : ShutdownResult :=
  let s1 : Session := { s with shutdown_future_ := some FutureVal.pending }
  if s1.state_ = SessionState.SESSION_STATE_READY ∨
      s1.state_ = SessionState.SESSION_STATE_CONNECTING then
    let s2 : Session := { s1 with state_ := SessionState.SESSION_STATE_DISCONNECTING }
    { session := s2, returned := s2.shutdown_future_, created := FutureVal.pending,
      worker_shutdown_calls := s2.io_worker_count }
  else
    let s2 : Session := { s1 with shutdown_future_ := none }
    { session := s2, returned := s2.shutdown_future_,
      created := FutureVal.failed notConnectedError, worker_shutdown_calls := 0 }

/-- A session mid-connect: CONNECTING, with the in-flight connect future
still stored in `connect_future_`. -/
def connectingSession : Session :=
  { state_ := SessionState.SESSION_STATE_CONNECTING, keyspace_ := "ks0",
    connect_future_ := some FutureVal.pending, shutdown_future_ := none,
    hosts_ := [1, 2], pending_resolve_count_ := 0, pending_connections_count_ := 2,
    current_io_worker_ := 0, io_worker_count := 1 }

/-- C1: calling `connect` on a CONNECTING session (state ≠ NEW) does set the
"connect has already been called" error on the future it allocates, but the
call RETURNS `nullptr` (the failed future is leaked, its error
unobservable), and it DOES mutate session state: the previously stored
connect completion handle is overwritten with null.  State field, hosts,
counters, cursor, worker count and keyspace are indeed unchanged, and no
connect machinery starts. -/
theorem session_c1 :
    (connectingSession.connect "ks1").returned = none ∧
    (connectingSession.connect "ks1").created = FutureVal.failed wrongStateConnectError ∧
    (connectingSession.connect "ks1").session.connect_future_ = none ∧
    connectingSession.connect_future_ = some FutureVal.pending ∧
    (connectingSession.connect "ks1").session.state_ = connectingSession.state_ ∧
    (connectingSession.connect "ks1").session.hosts_ = connectingSession.hosts_ ∧
    (connectingSession.connect "ks1").session.pending_resolve_count_ =
      connectingSession.pending_resolve_count_ ∧
    (connectingSession.connect "ks1").session.pending_connections_count_ =
      connectingSession.pending_connections_count_ ∧
    (connectingSession.connect "ks1").session.current_io_worker_ =
      connectingSession.current_io_worker_ ∧
    (connectingSession.connect "ks1").session.io_worker_count =
      connectingSession.io_worker_count ∧
    (connectingSession.connect "ks1").session.keyspace_ = connectingSession.keyspace_ ∧
    (connectingSession.connect "ks1").machinery_started = false := by
  decide

/-- A session that was never connected. -/
def newSession : Session :=
  { state_ := SessionState.SESSION_STATE_NEW, keyspace_ := "",
    connect_future_ := none, shutdown_future_ := none,
    hosts_ := [], pending_resolve_count_ := 0, pending_connections_count_ := 0,
    current_io_worker_ := 0, io_worker_count := 0 }

/-- A session after a completed shutdown. -/
def disconnectedSession : Session :=
  { state_ := SessionState.SESSION_STATE_DISCONNECTED, keyspace_ := "ks0",
    connect_future_ := none, shutdown_future_ := none,
    hosts_ := [1, 2], pending_resolve_count_ := 0, pending_connections_count_ := 0,
    current_io_worker_ := 1, io_worker_count := 2 }

/-- C10: `shutdown` on a NEW or DISCONNECTED session issues no worker
`shutdown_q()` call and leaves the state field unchanged, and it does set
the "Session not connected" error on the future it allocates — but the call
RETURNS `nullptr` rather than that failed completion handle (the failed
future is leaked and its error unobservable). -/
theorem session_c10 :
    newSession.shutdown.returned = none ∧
    newSession.shutdown.created = FutureVal.failed notConnectedError ∧
    newSession.shutdown.worker_shutdown_calls = 0 ∧
    newSession.shutdown.session.state_ = SessionState.SESSION_STATE_NEW ∧
    disconnectedSession.shutdown.returned = none ∧
    disconnectedSession.shutdown.created = FutureVal.failed notConnectedError ∧
    disconnectedSession.shutdown.worker_shutdown_calls = 0 ∧
    disconnectedSession.shutdown.session.state_ =
      SessionState.SESSION_STATE_DISCONNECTED := by
  decide

/-! ## `Session::execute(RequestFuture*)` and the bounded request queue -/

/-- Observable actions of `Session::execute(RequestFuture*)`, in program
order. -/
inductive ExecEvent where
  | enqueued
  | errored (e : CassError)
  | deleted
deriving DecidableEq, Repr

/-- Modelled from the spec: the bounded non-blocking MPMC request queue
(`mpmc_queue.hpp`, not part of the sources here).  Per §4.3 of the spec the
queue is bounded and enqueue is non-blocking: it appends and succeeds while
below capacity and fails, changing nothing, when full. -/
def mpmcEnqueue (cap : Nat) (q : List FutureVal) (x : FutureVal) :
    Option (List FutureVal) :=
  if q.length < cap then some (q ++ [x]) else none

/-- `Session::execute(RequestFuture*)`: try to enqueue; on failure call
`set_error(..., "request queue full", ...)` on the request future and then
`delete` it.  Returns the queue afterwards and the ordered action trace. -/
def Session.execute (cap : Nat) (q : List FutureVal) (rf : FutureVal) :
    List FutureVal × List ExecEvent :=
  match mpmcEnqueue cap q rf with
  | some qNew => (qNew, [ExecEvent.enqueued])
  | none => (q, [ExecEvent.errored queueFullError, ExecEvent.deleted])

/-- C9: with the request queue at capacity, `execute` does not enqueue: the
request future is resolved with the error "request queue full" and then the
request object is destroyed (resolved strictly before destroyed, exactly
once, never re-enqueued), and the queue is unchanged. -/
theorem session_c9 (cap : Nat) (q : List FutureVal) (rf : FutureVal)
    (hfull : q.length = cap) :
    Session.execute cap q rf =
      (q, [ExecEvent.errored queueFullError, ExecEvent.deleted]) := by
  rw [Session.execute, mpmcEnqueue, hfull]
  simp

/-- C9 witness: capacity 1, one queued request. -/
theorem session_c9_witness :
    Session.execute 1 [FutureVal.pending] FutureVal.pending =
      ([FutureVal.pending], [ExecEvent.errored queueFullError, ExecEvent.deleted]) :=
  session_c9 1 [FutureVal.pending] FutureVal.pending rfl
